import Mathlib

/-!
Verification development for the autogensocial orchestrator agent.

The definitions below are a shallow embedding of the TypeScript sources:
  * a JSON value model mirroring what the JavaScript runtime manipulates
    (`Json`, with JS truthiness, property access and `JSON.parse` /
    `JSON.stringify` counterparts),
  * the copywriter output extractor (`src/agent/copywriterAgent.ts`),
  * the trace manager (`src/shared/traceUtils.ts`) and the orchestration
    HTTP handler (`src/functions/orchestrateContent.ts`),
  * the lookup tools (`getPostPlan`, `getBrand`),
  * the orchestrator tool-call loop (`src/agent/OrchestratorAgent.ts`):
    auto-injection, topic auto-selection, validation and bounded retry.

Remote calls (model runs, Cosmos queries, tool executions) are modelled by
explicit oracles passed as arguments; a thrown JavaScript exception is
modelled as an error value of the oracle or as `Option.none` where the
source lets the exception escape.
-/

namespace AutogenSocial

/-- A JSON value as manipulated by the JavaScript runtime. Numbers are
modelled as integers: no value in this code base requires fractions. -/
inductive Json where
  | null
  | bool (b : Bool)
  | num (n : Int)
  | str (s : String)
  | arr (elems : List Json)
  | obj (fields : List (String × Json))
deriving Repr

namespace Json

/-- JavaScript truthiness of a value: `null`, `false`, `0` and `""` are
falsy; every array and object (even empty) is truthy. -/
def truthy : Json → Bool
  | .null => false
  | .bool b => b
  | .num n => n != 0
  | .str s => s ≠ ""
  | .arr _ => true
  | .obj _ => true

/-- Field lookup with JS semantics for duplicate keys: the last binding
wins. -/
def fieldLookup : List (String × Json) → String → Option Json
  | [], _ => none
  | (k', v) :: rest, k =>
    match fieldLookup rest k with
    | some r => some r
    | none => if k' = k then some v else none

/-- Property read on an object; reads on non-objects yield `undefined`
(`none`). -/
def get? : Json → String → Option Json
  | .obj fs, k => fieldLookup fs k
  | _, _ => none

/-- Optional-chained read `o?.k`: `undefined`/`null` receivers short-circuit
to `undefined`; other non-objects also have none of our named properties. -/
def optGet (o : Option Json) (k : String) : Option Json :=
  match o with
  | none => none
  | some j => j.get? k

/-- The JS `a || b` over possibly-undefined values: `b` when `a` is absent
or falsy. -/
def jsOr (a b : Option Json) : Option Json :=
  match a with
  | some v => if v.truthy then some v else b
  | none => b

/-- Property write `obj[k] = v` (JS objects keep the key's position; we
replace every duplicate so that `get?` agrees). Writes on non-objects are
modelled as no-ops (never exercised by the theorems below). -/
def setField : Json → String → Json → Json
  | .obj fs, k, v =>
    .obj (if fs.any (fun p => p.1 = k) then
            fs.map (fun p => if p.1 = k then (k, v) else p)
          else fs ++ [(k, v)])
  | j, _, _ => j

/-- True for values whose JS `typeof` is `"object"`: objects, arrays and
`null`. -/
def typeofObject : Json → Bool
  | .obj _ => true
  | .arr _ => true
  | .null => true
  | _ => false

end Json

/-- Truthiness of a possibly-undefined value (`undefined` is falsy). -/
def optTruthy (o : Option Json) : Bool :=
  match o with
  | some v => v.truthy
  | none => false

/-- Whitespace accepted between JSON tokens. -/
def isJsonWs (c : Char) : Bool := ([' ', '\n', '\t', '\r'] : List Char).contains c

/-- Skip leading JSON whitespace. -/
def skipWs : List Char → List Char
  | c :: cs => if isJsonWs c then skipWs cs else c :: cs
  | [] => []

/-- ASCII digit test. -/
def isDigitCh (c : Char) : Bool := c.isDigit

/-- Split a character list into its leading digits and the remainder. -/
def takeDigits : List Char → List Char × List Char
  | c :: cs =>
    if isDigitCh c then
      let (ds, r) := takeDigits cs
      (c :: ds, r)
    else ([], c :: cs)
  | [] => ([], [])

/-- Decimal value of a digit list. -/
def digitsToNat (ds : List Char) : Nat :=
  ds.foldl (fun acc c => acc * 10 + (c.toNat - '0'.toNat)) 0

/-- The escape sequences recognised by the string decoder, as an
association list from the character after the backslash to the decoded
character (`\uXXXX` is not modelled; no input in this code base uses
it). -/
def escTable : List (Char × Char) :=
  [('"', '"'), ('\\', '\\'), ('/', '/'), ('n', '\n'), ('t', '\t'), ('r', '\r')]

/-- Decode one escape sequence through `escTable`. -/
def escChar (e : Char) : Option Char :=
  (escTable.find? (fun p => p.1 == e)).map Prod.snd

/-- Parse the body of a JSON string literal (after the opening quote),
returning the decoded string and the input after the closing quote. -/
def parseStrBody : List Char → Option (String × List Char)
  | [] => none
  | '"' :: rest => some ("", rest)
  | '\\' :: rest =>
    match rest with
    | [] => none
    | e :: rest' =>
      match escChar e with
      | none => none
      | some c =>
        match parseStrBody rest' with
        | none => none
        | some (s, r) => some (⟨c :: s.data⟩, r)
  | c :: rest =>
    match parseStrBody rest with
    | none => none
    | some (s, r) => some (⟨c :: s.data⟩, r)

/-- Parse an integer literal. Fractions and exponents are not modelled
(nothing in this code base emits them); a stray `.` makes the enclosing
decode fail rather than succeed with a rounded value. -/
def parseNumTok (cs : List Char) : Option (Json × List Char) :=
  match cs with
  | '-' :: rest =>
    match takeDigits rest with
    | ([], _) => none
    | (ds, r) => some (.num (-(digitsToNat ds : Int)), r)
  | _ =>
    match takeDigits cs with
    | ([], _) => none
    | (ds, r) => some (.num ((digitsToNat ds : Int)), r)

mutual

/-- Fuel-indexed JSON value decoder (the counterpart of `JSON.parse`).
The fuel only bounds nesting; `Json.parse?` supplies enough for any input. -/
def parseVal : Nat → List Char → Option (Json × List Char)
  | 0, _ => none
  | fuel + 1, cs =>
    match skipWs cs with
    | 'n' :: 'u' :: 'l' :: 'l' :: rest => some (.null, rest)
    | 't' :: 'r' :: 'u' :: 'e' :: rest => some (.bool true, rest)
    | 'f' :: 'a' :: 'l' :: 's' :: 'e' :: rest => some (.bool false, rest)
    | '"' :: rest =>
      match parseStrBody rest with
      | some (s, r) => some (.str s, r)
      | none => none
    | '{' :: rest =>
      match skipWs rest with
      | '}' :: r => some (.obj [], r)
      | cs' =>
        match parseMembers fuel cs' with
        | some (fs, r) => some (.obj fs, r)
        | none => none
    | '[' :: rest =>
      match skipWs rest with
      | ']' :: r => some (.arr [], r)
      | cs' =>
        match parseElems fuel cs' with
        | some (es, r) => some (.arr es, r)
        | none => none
    | cs' => parseNumTok cs'

/-- Decode one or more `"key": value` members followed by `}`. -/
def parseMembers : Nat → List Char → Option (List (String × Json) × List Char)
  | 0, _ => none
  | fuel + 1, cs =>
    match skipWs cs with
    | '"' :: rest =>
      match parseStrBody rest with
      | none => none
      | some (k, r1) =>
        match skipWs r1 with
        | ':' :: r2 =>
          match parseVal fuel r2 with
          | none => none
          | some (v, r3) =>
            match skipWs r3 with
            | ',' :: r4 =>
              match parseMembers fuel r4 with
              | none => none
              | some (fs, r5) => some ((k, v) :: fs, r5)
            | '}' :: r4 => some ([(k, v)], r4)
            | _ => none
        | _ => none
    | _ => none

/-- Decode one or more array elements followed by `]`. -/
def parseElems : Nat → List Char → Option (List Json × List Char)
  | 0, _ => none
  | fuel + 1, cs =>
    match parseVal fuel cs with
    | none => none
    | some (v, r1) =>
      match skipWs r1 with
      | ',' :: r2 =>
        match parseElems fuel r2 with
        | none => none
        | some (es, r3) => some (v :: es, r3)
      | ']' :: r2 => some ([v], r2)
      | _ => none

end

/-- The counterpart of `JSON.parse`: decode the whole string (trailing
whitespace allowed), `none` when the runtime would throw a SyntaxError. -/
def Json.parse? (s : String) : Option Json :=
  match parseVal (s.length + 1) s.data with
  | some (j, rest) => if skipWs rest = [] then some j else none
  | none => none

/-- One character of `JSON.stringify` string escaping. -/
def escapeStringChar (c : Char) : String :=
  if c = '"' then "\\\""
  else if c = '\\' then "\\\\"
  else if c = '\n' then "\\n"
  else if c = '\t' then "\\t"
  else if c = '\r' then "\\r"
  else String.singleton c

/-- `JSON.stringify` escaping of a string body. -/
def escapeString (s : String) : String :=
  s.data.foldl (fun acc c => acc ++ escapeStringChar c) ""

mutual

/-- The counterpart of `JSON.stringify` (no spacing argument, as in the
source). -/
def Json.stringify : Json → String
  | .null => "null"
  | .bool true => "true"
  | .bool false => "false"
  | .num n => toString n
  | .str s => "\"" ++ escapeString s ++ "\""
  | .arr es => "[" ++ stringifyElems es ++ "]"
  | .obj fs => "\x7b" ++ stringifyMembers fs ++ "\x7d"

/-- Comma-separated rendering of array elements. -/
def stringifyElems : List Json → String
  | [] => ""
  | [e] => Json.stringify e
  | e :: es => Json.stringify e ++ "," ++ stringifyElems es

/-- Comma-separated rendering of object members. -/
def stringifyMembers : List (String × Json) → String
  | [] => ""
  | [(k, v)] => "\"" ++ escapeString k ++ "\":" ++ Json.stringify v
  | (k, v) :: fs =>
    "\"" ++ escapeString k ++ "\":" ++ Json.stringify v ++ "," ++ stringifyMembers fs

end

/-- Longest prefix of the input ending at its last `}`, if any. -/
def upToLastClose : List Char → Option (List Char)
  | [] => none
  | c :: cs =>
    match upToLastClose cs with
    | some t => some (c :: t)
    | none => if c = '}' then some [c] else none

/-- The match of the regular expression used at the fallback site of
`copywriterAgent.ts` (an opening brace, then greedily anything, then a
closing brace): from the first `{` that has a `}` after it, to the last
`}` of the whole string. -/
def braceMatch (cs : List Char) : Option (List Char) :=
  match cs.dropWhile (fun c => c ≠ '{') with
  | [] => none
  | c :: rest =>
    match upToLastClose rest with
    | some t => some (c :: t)
    | none => none

/-- String-level wrapper of `braceMatch`. -/
def braceSubstring (s : String) : Option String :=
  (braceMatch s.data).map (fun l => ⟨l⟩)

/-- The string-candidate decode of the copywriter output extractor
(`copywriterAgent.ts`, `generateCopy`): direct `JSON.parse`, then on
failure `JSON.parse` of the brace-delimited substring. -/
def extractJsonFallback (s : String) : Option Json :=
  match Json.parse? s with
  | some j => some j
  | none =>
    match braceSubstring s with
    | some sub => Json.parse? sub
    | none => none

/-- One thread message as consumed by the copywriter output extractor. -/
structure Message where
  role : String
  content : Json

/-- The last assistant entry of the final message list
(`allMessages.slice().reverse().find(m => m.role === "assistant")`). -/
def lastAssistant (msgs : List Message) : Option Message :=
  msgs.reverse.find? (fun m => m.role == "assistant")

/-- The `output` candidate picked in `generateCopy`: when the content is a
list whose first element carries a truthy `text.value`, that value;
otherwise the raw content (`none` models `output` staying `null` because
no assistant message exists). -/
def candidateOutput (msgs : List Message) : Option Json :=
  match lastAssistant msgs with
  | none => none
  | some m =>
    match m.content with
    | .arr (c0 :: rest) =>
      match Json.optGet (Json.optGet (some c0) "text") "value" with
      | some v => if v.truthy then some v else some (.arr (c0 :: rest))
      | none => some (.arr (c0 :: rest))
    | c => some c

/-- The decoded value (`parsed` in `generateCopy`): a truthy string
candidate goes through direct decode with the brace fallback, any other
truthy candidate is used as-is, and a falsy candidate leaves `parsed`
null (`if (output)` guard). -/
def parsedOutput (msgs : List Message) : Option Json :=
  match candidateOutput msgs with
  | none => none
  | some v =>
    if v.truthy then
      match v with
      | .str s => extractJsonFallback s
      | j => some j
    else none

/-- The copywriter agent response contract: extracted postCopy, status and
error string (the traceEvents field bears on no claim and is omitted). -/
structure CopyResponse where
  postCopy : Option Json
  status : String
  error : Option String
deriving Repr

/-- The output-contract validation of `generateCopy`:
`parsed && typeof parsed === "object" && parsed.payload &&
parsed.payload.postCopy && typeof parsed.payload.postCopy === "object"`. -/
def validTask (parsed : Json) : Bool :=
  parsed.truthy && parsed.typeofObject &&
    optTruthy (parsed.get? "payload") &&
    optTruthy (Json.optGet (parsed.get? "payload") "postCopy") &&
    (match Json.optGet (parsed.get? "payload") "postCopy" with
     | some pc => pc.typeofObject
     | none => false)

/-- The extractor tail of `generateCopy`: the response built from the
final message list. -/
def generateCopyResponse (msgs : List Message) : CopyResponse :=
  match parsedOutput msgs with
  | some parsed =>
    if validTask parsed then
      { postCopy := Json.optGet (parsed.get? "payload") "postCopy"
        status := "success"
        error := none }
    else
      { postCopy := none
        status := "error"
        error := some "Agent did not return valid postCopy" }
  | none =>
    { postCopy := none
      status := "error"
      error := some "Agent did not return valid postCopy" }

/-- The prose-wrapped planner output of the fallback-extraction scenario. -/
def c3exampleInput : String :=
  "Here is the result: \x7b\"payload\":\x7b\"postCopy\":\x7b\"content\":\"hi\"\x7d\x7d\x7d — done"

/-- The brace-delimited substring of `c3exampleInput`. -/
def c3exampleSub : String :=
  "\x7b\"payload\":\x7b\"postCopy\":\x7b\"content\":\"hi\"\x7d\x7d\x7d"

/-- The object enclosed in `c3exampleInput`. -/
def c3exampleObj : Json :=
  .obj [("payload", .obj [("postCopy", .obj [("content", .str "hi")])])]

/-- One recorded trace event. Fields that bear on no claim (runId,
timestamp, input, output, agentName) are omitted: they never affect event
counts or the status metadata. -/
structure TEvent where
  eventType : String
  toolName : Option String
  error : Option Json
  metadata : Json
deriving Repr

/-- The trace manager state (`traceUtils.ts`): ordered event log, run
status, and whether `endedAt` has been assigned. -/
structure TraceMgr where
  events : List TEvent
  status : String
  endedAtSet : Bool
deriving Repr

/-- The `TraceManager` constructor: status `running` and one implicit
`start` event carrying empty-object metadata. -/
def TraceMgr.init : TraceMgr :=
  { events := [{ eventType := "start", toolName := none, error := none, metadata := .obj [] }]
    status := "running"
    endedAtSet := false }

/-- `addEvent`: append one event (absent metadata is stored as null). -/
def TraceMgr.addEvent (tm : TraceMgr) (eventType : String) (toolName : Option String)
    (error : Option Json) (metadata : Json) : TraceMgr :=
  { tm with events := tm.events ++ [{ eventType, toolName, error, metadata }] }

/-- The `{ ...metadata, status: this.status }` object attached to the
`end` event (spreading `undefined` yields the bare status object). -/
def endMetadata (metadata : Option Json) (status : String) : Json :=
  match metadata with
  | some (.obj fs) => Json.setField (.obj fs) "status" (.str status)
  | _ => .obj [("status", .str status)]

/-- `end()`: keep the first `endedAt`, append the `end` event carrying the
current status in its metadata. -/
def TraceMgr.endTrace (tm : TraceMgr) (metadata : Option Json) : TraceMgr :=
  { tm.addEvent "end" none none (endMetadata metadata tm.status) with endedAtSet := true }

/-- `fail()`: set status `failed`, record the `error` event, finalize. -/
def TraceMgr.failTrace (tm : TraceMgr) (error : Json) (toolName : Option String) : TraceMgr :=
  (({ tm with status := "failed", endedAtSet := true }).addEvent
    "error" toolName (some error) .null).endTrace none

/-- `succeed()`: set status `succeeded`, finalize. -/
def TraceMgr.succeedTrace (tm : TraceMgr) (metadata : Option Json) : TraceMgr :=
  ({ tm with status := "succeeded", endedAtSet := true }).endTrace metadata

/-- Number of trace events of one kind. -/
def countType (evs : List TEvent) (t : String) : Nat :=
  (evs.filter (fun e => e.eventType == t)).length

/-- The `status` field of the last `end` event's metadata. -/
def lastEndStatus (evs : List TEvent) : Option Json :=
  match evs.foldl (fun acc e => if e.eventType == "end" then some e else acc) none with
  | none => none
  | some e => e.metadata.get? "status"

/-- Outcome of a Cosmos query: `none` models `fetchAll()` throwing, `some`
is the fetched resources list. -/
abbrev QueryOutcome := Option (List Json)

/-- A `GetPostPlanByIdResponse`. -/
structure PostPlanResp where
  postPlan : Option Json
deriving Repr

/-- The try-block of `getPostPlan` (`getPostPlanTool.ts`): empty or
missing resources yield `{ postPlan: null }`, a throwing query is an
error (to be caught by the function's own catch). -/
def getPostPlanBody (q : QueryOutcome) : Except String PostPlanResp :=
  match q with
  | none => .error "query failed"
  | some [] => .ok { postPlan := none }
  | some (d :: _) => .ok { postPlan := some d }

/-- `getPostPlan`: the body with its catch, which converts any store
failure to `{ postPlan: null }`; the function itself never throws. -/
def getPostPlan (q : QueryOutcome) : PostPlanResp :=
  match getPostPlanBody q with
  | .ok r => r
  | .error _ => { postPlan := none }

/-- A `GetBrandByIdResponse`. -/
structure BrandResp where
  brand : Option Json
deriving Repr

/-- The try-block of `getBrand` (the query variant returning
`{ brand: null }` on not-found, cited as `updatePostTool.ts` 61-87). -/
def getBrandBody (q : QueryOutcome) : Except String BrandResp :=
  match q with
  | none => .error "query failed"
  | some [] => .ok { brand := none }
  | some (d :: _) => .ok { brand := some d }

/-- `getBrand`: the body with its catch, which converts any store failure
to `{ brand: null }`; the function itself never throws. -/
def getBrand (q : QueryOutcome) : BrandResp :=
  match getBrandBody q with
  | .ok r => r
  | .error _ => { brand := none }

/-- The remote outcomes one `orchestrateContent` request can encounter:
body decoding, the two store queries, copywriter initialization and
generation, post creation. `genResult = none` models `generateCopy`
throwing; `some r` models it resolving with `result.response = r`. -/
structure HandlerEnv where
  url : String
  bodyParse : Option Json
  postPlanQuery : QueryOutcome
  brandQuery : QueryOutcome
  initOk : Bool
  genResult : Option (Option CopyResponse)
  createPostOk : Bool

/-- The HTTP status together with the finalized trace (response bodies
bear on no claim and are omitted). -/
structure HandlerResult where
  httpStatus : Nat
  trace : TraceMgr

/-- `makeHandleError`'s handler: record the failure on the trace and
return the error status. -/
def handleErrorModel (tm : TraceMgr) (status : Nat) (toolName : Option String) : HandlerResult :=
  { httpStatus := status, trace := tm.failTrace (.obj []) toolName }

/-- `isContentOrchestratorRequest`: an object with string `brandId` and
`postPlanId`. -/
def isCORequest (b : Json) : Bool :=
  b.truthy && b.typeofObject &&
    (match b.get? "brandId" with | some (.str _) => true | _ => false) &&
    (match b.get? "postPlanId" with | some (.str _) => true | _ => false)

/-- The handler tail after the copywriter step: postCopy presence check,
createPost with its trace events, then finalization (succeed on a
completed step, failed end otherwise). -/
def handlerTail (env : HandlerEnv) (tm : TraceMgr) (agentResponse : Option CopyResponse) :
    HandlerResult :=
  let stepCompleted : Bool :=
    match agentResponse with
    | some r => r.status == "success"
    | none => false
  let postCopy : Option Json :=
    match agentResponse with
    | some r => r.postCopy
    | none => none
  if optTruthy postCopy then
    let tm := tm.addEvent "tool-invoke" (some "createPost") none .null
    if env.createPostOk then
      let tm := tm.addEvent "tool-result" (some "createPost") none .null
      let tm :=
        if stepCompleted then tm.succeedTrace none
        else ({ tm with status := "failed" }).endTrace none
      { httpStatus := 200, trace := tm }
    else handleErrorModel tm 500 (some "createPost")
  else handleErrorModel tm 500 (some "createPost")

/-- The orchestration HTTP handler (`orchestrateContent.ts`): trace setup
(the constructor's `start` plus the handler's own explicit `start`
event), body decode and validation, postPlan and brand lookups (whose
surrounding catch branches are unreachable, `getPostPlan`/`getBrand`
being total), the copywriter step, createPost, finalization. The
post-finalization trace persistence touches no event and is omitted. -/
def orchestrateContentModel (env : HandlerEnv) : HandlerResult :=
  let tm := TraceMgr.init
  let tm := tm.addEvent "start" none none (.obj [("url", .str env.url)])
  match env.bodyParse with
  | none => handleErrorModel tm 400 none
  | some body =>
    if isCORequest body then
      let tm := tm.addEvent "tool-invoke" (some "getPostPlan") none .null
      let pp := (getPostPlan env.postPlanQuery).postPlan
      let tm := tm.addEvent "tool-result" (some "getPostPlan") none .null
      match pp with
      | none => handleErrorModel tm 404 (some "getPostPlan")
      | some _ =>
        let tm := tm.addEvent "tool-invoke" (some "getBrand") none .null
        let br := (getBrand env.brandQuery).brand
        let tm := tm.addEvent "tool-result" (some "getBrand") none .null
        match br with
        | none => handleErrorModel tm 404 (some "getBrand")
        | some _ =>
          let tm := tm.addEvent "tool-invoke" (some "generateCopy") none .null
          if env.initOk then
            match env.genResult with
            | none =>
              let tm := tm.addEvent "error" (some "generateCopy") (some (.obj [])) .null
              handlerTail env tm none
            | some respOpt =>
              let tm := tm.addEvent "tool-result" (some "generateCopy") none .null
              handlerTail env tm respOpt
          else handleErrorModel tm 500 (some "init")
    else handleErrorModel tm 400 none

/-- The registered tool names: the keys of `agentToolMap`
(`definitions.ts`). -/
def registeredTools : List String := ["getBrand", "getPostPlan", "createPost", "updatePost"]

/-- The result of awaiting a tool's `execute`: it resolves with a value or
throws with a message. -/
inductive ExecResult where
  | ok (r : Json)
  | err (msg : String)

/-- A tool-execution oracle: the behaviour of each registered tool's
`execute` on given decoded arguments (the tools hit Cosmos and Azure, so
their outcomes are environment data). -/
abbrev Exec := String → Json → ExecResult

/-- The message of the TypeError thrown when a name has no entry in
`agentToolMap` and the code evaluates `toolObj.execute(params)`. -/
def missingToolMsg : String := "Cannot read properties of undefined (reading 'execute')"

/-- The evaluation of `agentToolMap[name].execute(params)`: an
unregistered name makes the property access on `undefined` throw before
any tool function runs; only registered names reach the oracle. -/
def attemptExec (exec : Exec) (name : String) (params : Json) : ExecResult :=
  if registeredTools.contains name then exec name params else .err missingToolMsg

/-- Tool-call arguments: string-encoded or already structured. -/
inductive Args where
  | raw (s : String)
  | decoded (j : Json)

/-- One pending tool call of a `requires_action` iteration. -/
structure ToolCall where
  id : String
  name : String
  arguments : Args

/-- Argument decoding before dispatch (`typeof arguments === "string" ?
JSON.parse(arguments) : arguments`); `none` models `JSON.parse` throwing,
which the source does not catch at this site. -/
def decodeArgs : Args → Option Json
  | .raw s => Json.parse? s
  | .decoded j => some j

/-- One submitted tool output (`{ toolCallId, output }`; the output is
`JSON.stringify`d on the wire, kept structured here). -/
structure ToolOutput where
  toolCallId : String
  output : Json

/-- The loop-local guardrail and context state of `OrchestratorAgent.run`:
the retry map and the last-seen brand/plan/copy context. -/
structure LoopState where
  retryCount : List (String × Nat)
  lastBrand : Option Json
  lastPostPlan : Option Json
  lastPostCopy : Option Json

/-- The state as declared at the top of `run`: empty retry map, no
context seen. -/
def initLoopState : LoopState :=
  { retryCount := [], lastBrand := none, lastPostPlan := none, lastPostCopy := none }

/-- The retry policy constant of `run`. -/
def MAX_RETRIES : Nat := 3

/-- `retryCount[key] || 0`. -/
def lookupCount : List (String × Nat) → String → Nat
  | [], _ => 0
  | (k', n) :: rest, k => if k' = k then n else lookupCount rest k

/-- `retryCount[key] = n`. -/
def setCount : List (String × Nat) → String → Nat → List (String × Nat)
  | [], k, n => [(k, n)]
  | (k', n') :: rest, k, n =>
    if k' = k then (k, n) :: rest else (k', n') :: setCount rest k n

/-- `validateToolOutput`: only `createPost` has a rule — its params must
carry a truthy `postCopy`. The result argument is accepted and ignored,
as in the source. -/
def validateToolOutput (toolName : String) (params : Json) (result : Json) : Option String :=
  if toolName = "createPost" then
    if optTruthy (params.get? "postCopy") then none
    else some "Missing required postCopy for createPost."
  else none

/-- `autoSelectTopic`: the first entry of `postPlan.content.topics` when
that is a non-empty array, else `"general"`. -/
def autoSelectTopic (postPlan : Option Json) : Json :=
  match postPlan with
  | some p =>
    if p.truthy && optTruthy (p.get? "content") then
      match Json.optGet (p.get? "content") "topics" with
      | some (.arr (t :: _)) => t
      | _ => .str "general"
    else .str "general"
  | none => .str "general"

/-- `JSON.stringify` drops keys whose value is `undefined`: an absent
optional field contributes no member to the injected arguments. -/
def optionalField (k : String) (v : Option Json) : List (String × Json) :=
  match v with
  | some j => [(k, j)]
  | none => []

/-- The auto-injection pass of `run` (lines 123-157): when the batch holds
a copywriterAgent call, decode the first one's arguments, simulate its
execution (the thrown lookup error is caught, leaving `lastPostCopy`
null), and when the result carries a truthy `postCopy`, append a
synthetic createPost call built from the carried-forward identifiers
(its stringify-then-reparse round trip is modelled as the identity on
the decoded object). Returns the possibly extended batch, the new state
and the dispatch-attempt log; `none` models the uncaught `JSON.parse`
throw on undecodable arguments. -/
def injectPhase (exec : Exec) (tcs : List ToolCall) (st : LoopState) :
    Option (List ToolCall × LoopState × List (String × Json)) :=
  match tcs.find? (fun tc => tc.name == "copywriterAgent") with
  | none => some (tcs, st, [])
  | some copyCall =>
    match decodeArgs copyCall.arguments with
    | none => none
    | some params =>
      let lastPC : Option Json :=
        match attemptExec exec copyCall.name params with
        | .ok r => some r
        | .err _ => none
      let st' := { st with lastPostCopy := lastPC }
      match lastPC with
      | some r =>
        if r.truthy && optTruthy (r.get? "postCopy") then
          let pc := (r.get? "postCopy").getD .null
          let injected : ToolCall :=
            { id := "autogenerated-createPost"
              name := "createPost"
              arguments := .decoded (.obj
                (optionalField "brandId"
                    (Json.jsOr (Json.optGet st.lastBrand "brandId") (params.get? "brandId")) ++
                 optionalField "postPlanId"
                    (Json.jsOr (Json.optGet st.lastPostPlan "postPlanId") (params.get? "postPlanId")) ++
                 [("postCopy", pc)])) }
          some (tcs ++ [injected], st', [(copyCall.name, params)])
        else some (tcs, st', [(copyCall.name, params)])
      | none => some (tcs, st', [(copyCall.name, params)])

/-- Dispatch of one pending call (the body of the `toolCalls.map` at lines
159-199): argument decode, context tracking, topic auto-fill, execution
with caught errors, validation and bounded retry. Also returns the
dispatch-attempt log entry (name and the params handed to the
execution). -/
def dispatchCall (exec : Exec) (st : LoopState) (tc : ToolCall) :
    Option (ToolOutput × LoopState × List (String × Json)) :=
  match decodeArgs tc.arguments with
  | none => none
  | some params0 =>
    let st := if tc.name == "getBrand" then { st with lastBrand := some params0 } else st
    let st := if tc.name == "getPostPlan" then { st with lastPostPlan := some params0 } else st
    let params :=
      if tc.name == "copywriterAgent" && !optTruthy (params0.get? "topic") then
        params0.setField "topic" (autoSelectTopic st.lastPostPlan)
      else params0
    let result : Json :=
      match attemptExec exec tc.name params with
      | .ok r => r
      | .err m => .obj [("error", .str m)]
    match validateToolOutput tc.name params result with
    | some msg =>
      let key := tc.name ++ params.stringify
      let cnt := lookupCount st.retryCount key + 1
      let st := { st with retryCount := setCount st.retryCount key cnt }
      let out : Json :=
        if cnt < MAX_RETRIES then
          .obj [("error", .str msg), ("retry", .num (cnt : Int))]
        else
          .obj [("error", .str msg), ("retries", .num (MAX_RETRIES : Int)),
                ("status", .str "failed")]
      some ({ toolCallId := tc.id, output := out }, st, [(tc.name, params)])
    | none => some ({ toolCallId := tc.id, output := result }, st, [(tc.name, params)])

/-- Sequential elaboration of the batch dispatch. `Promise.all` runs each
callback's synchronous prefix in list order before any `await` resolves,
which fixes the context-tracking and topic-fill order; the post-await
tails mutate only per-key retry counts, so the sequential model agrees
with the event-loop interleavings on every batch without duplicate
failing keys. -/
def dispatchAll (exec : Exec) : List ToolCall → LoopState →
    Option (List ToolOutput × LoopState × List (String × Json))
  | [], st => some ([], st, [])
  | tc :: rest, st =>
    match dispatchCall exec st tc with
    | none => none
    | some (out, st', att) =>
      match dispatchAll exec rest st' with
      | none => none
      | some (outs, st'', atts) => some (out :: outs, st'', att ++ atts)

/-- One `requires_action` iteration: the injection pass, then dispatch of
the (possibly extended) batch, whose outputs are submitted as one unit. -/
def processIteration (exec : Exec) (tcs : List ToolCall) (st : LoopState) :
    Option (List ToolOutput × LoopState × List (String × Json)) :=
  match injectPhase exec tcs st with
  | none => none
  | some (tcs', st', att0) =>
    match dispatchAll exec tcs' st' with
    | none => none
    | some (outs, st'', att1) => some (outs, st'', att0 ++ att1)

/-- The sequence of `requires_action` iterations of one `run` invocation,
threading the guardrail and context state. -/
def runIterations (exec : Exec) : List (List ToolCall) → LoopState →
    Option (List (List ToolOutput) × LoopState × List (List (String × Json)))
  | [], st => some ([], st, [])
  | b :: bs, st =>
    match processIteration exec b st with
    | none => none
    | some (outs, st', atts) =>
      match runIterations exec bs st' with
      | none => none
      | some (outss, st'', attss) => some (outs :: outss, st'', atts :: attss)

/-- One full `run`: the guardrail and context state is freshly declared by
the invocation, never carried over from another run. -/
def runModel (exec : Exec) (batches : List (List ToolCall)) :
    Option (List (List ToolOutput) × LoopState × List (List (String × Json))) :=
  runIterations exec batches initLoopState

/-- The dispatch attempts that actually invoke a registered tool's
`execute` function (an unregistered name throws on the property access
of `undefined` before any function can be invoked). -/
def executedCalls (atts : List (String × Json)) : List (String × Json) :=
  atts.filter (fun a => registeredTools.contains a.1)

/-! ### Concrete scenario inputs -/

/-- The postCopy object of end-to-end scenario 3. -/
def scenario3PostCopy : Json :=
  .obj [("content", .str "X"), ("comment", .str "Y"), ("hashtags", .arr [.str "#a"])]

/-- The decoded task object of end-to-end scenario 3. -/
def scenario3Parsed : Json :=
  .obj [("payload", .obj [("postCopy", scenario3PostCopy)])]

/-- The literal JSON text of end-to-end scenario 3. -/
def scenario3Json : String :=
  "\x7b\"payload\":\x7b\"postCopy\":\x7b\"content\":\"X\",\"comment\":\"Y\",\"hashtags\":[\"#a\"]\x7d\x7d\x7d"

/-- The final message list of end-to-end scenario 3. -/
def scenario3Msg : Message :=
  { role := "assistant"
    content := .arr [.obj [("text", .obj [("value", .str scenario3Json)])]] }

/-- Arguments of a createPost call missing its required postCopy
(end-to-end scenario 2). -/
def c1Params : Json := .obj [("brandId", .str "b1")]

/-- The repeatedly failing createPost tool call. -/
def c1Call : ToolCall := { id := "call-1", name := "createPost", arguments := .decoded c1Params }

/-- An oracle on which `createPost` rejects the malformed arguments, as
the real tool does (`createPostTool.ts` throws on a missing postCopy);
the guardrail's verdict does not read the result, only the params. -/
def c1Exec : Exec := fun _ _ => .err "Missing or invalid required field: postCopy"

/-- The guardrail retry key of `c1Call`. -/
def c1Key : String := "createPost" ++ c1Params.stringify

/-- The guardrail's validation message for a createPost call without a
postCopy. -/
def c1Msg : String := "Missing required postCopy for createPost."

/-- The guardrail verdict on the n-th occurrence of the same failing
(tool, arguments) pair: a retry result carrying the attempt number while
the post-increment count is below `MAX_RETRIES`, the terminal failure
result from then on. -/
def c1GuardOutput (n : Nat) : Json :=
  if n < MAX_RETRIES then
    .obj [("error", .str c1Msg), ("retry", .num (n : Int))]
  else
    .obj [("error", .str c1Msg), ("retries", .num (MAX_RETRIES : Int)), ("status", .str "failed")]

/-- The retry map of the run after n occurrences of the `c1Call` failure. -/
def c1RetryMap : Nat → List (String × Nat)
  | 0 => []
  | n + 1 => [(c1Key, n + 1)]

/-- The loop state after n occurrences of the `c1Call` failure. -/
def c1State (n : Nat) : LoopState :=
  { retryCount := c1RetryMap n, lastBrand := none, lastPostPlan := none, lastPostCopy := none }

/-- Arguments of a pending copywriterAgent call (brand and plan
identifiers present, topic present so no auto-fill interferes). -/
def c2Params : Json :=
  .obj [("brandId", .str "b1"), ("postPlanId", .str "p1"), ("topic", .str "t")]

/-- A pending copywriterAgent call with no accompanying createPost call. -/
def c2Call : ToolCall := { id := "c2-1", name := "copywriterAgent", arguments := .decoded c2Params }

/-- A maximally generous oracle: every registered tool resolves with a
result carrying a truthy postCopy. -/
def c2Exec : Exec := fun _ _ => .ok (.obj [("postCopy", .obj [("content", .str "hi")])])

/-- An unregistered (hallucinated) tool call. -/
def c6Call : ToolCall := { id := "u1", name := "imaginaryTool", arguments := .decoded (.obj []) }

/-- The result `getPostPlan` resolves with in the topic scenario: the
fetched plan document carries a non-empty topics list headed by
`topic-one`. -/
def c7PlanResult : Json :=
  .obj [("postPlan",
    .obj [("content", .obj [("topics", .arr [.str "topic-one", .str "topic-two"])])])]

/-- An oracle on which `getPostPlan` resolves with `c7PlanResult`. -/
def c7Exec : Exec := fun name _ =>
  if name == "getPostPlan" then .ok c7PlanResult else .ok (.obj [])

/-- The getPostPlan call of the topic scenario. -/
def c7PlanCall : ToolCall :=
  { id := "c7-1", name := "getPostPlan", arguments := .decoded (.obj [("postPlanId", .str "p1")]) }

/-- Iteration 1 of the topic scenario: one getPostPlan call. -/
def c7Batch1 : List ToolCall := [c7PlanCall]

/-- The copywriterAgent call of the topic scenario, whose arguments omit
the topic. -/
def c7CwCall : ToolCall :=
  { id := "c7-2", name := "copywriterAgent", arguments := .decoded (.obj [("brandId", .str "b1")]) }

/-- Iteration 2 of the topic scenario. -/
def c7Batch2 : List ToolCall := [c7CwCall]

/-- The loop state after the getPostPlan iteration of the topic scenario:
`lastPostPlan` holds that call's argument object. -/
def c7StateAfterPlan : LoopState :=
  { initLoopState with lastPostPlan := some (.obj [("postPlanId", .str "p1")]) }

/-- The terminal guardrail failure result for the scenario-2 call. -/
def c1TerminalOutput : Json :=
  .obj [("error", .str c1Msg), ("retries", .num (MAX_RETRIES : Int)), ("status", .str "failed")]

/-- The retry-shaped guardrail result carrying attempt number n — the
shape the claim prescribes for every occurrence up to the 3rd. -/
def c1RetryStyle (n : Nat) : Json :=
  .obj [("error", .str c1Msg), ("retry", .num (n : Int))]

/-- The dispatch value of the first occurrence of the scenario-2 failing
call. -/
def c1DispatchResult : ToolOutput × LoopState × List (String × Json) :=
  (dispatchCall c1Exec initLoopState c1Call).getD
    ({ toolCallId := "", output := .null }, initLoopState, [])

/-- The scenario-2 run value after one iteration. -/
def c8Run1 : List (List ToolOutput) × LoopState × List (List (String × Json)) :=
  (runIterations c1Exec [[c1Call]] initLoopState).getD ([], initLoopState, [])

/-- The scenario-2 run value after two iterations. -/
def c8Run2 : List (List ToolOutput) × LoopState × List (List (String × Json)) :=
  (runIterations c1Exec [[c1Call], [c1Call]] initLoopState).getD ([], initLoopState, [])

/-- A request environment in which everything succeeds. -/
def happyEnv : HandlerEnv :=
  { url := "http://localhost/api/orchestrateContent"
    bodyParse := some (.obj [("brandId", .str "b1"), ("postPlanId", .str "p1")])
    postPlanQuery := some [.obj [("id", .str "p1")]]
    brandQuery := some [.obj [("id", .str "b1")]]
    initOk := true
    genResult := some (some
      { postCopy := some scenario3PostCopy, status := "success", error := none })
    createPostOk := true }

/-- The happy environment with the postPlan store query failing. -/
def planStoreFailEnv : HandlerEnv := { happyEnv with postPlanQuery := none }

/-- The happy environment with the brand store query failing. -/
def brandStoreFailEnv : HandlerEnv := { happyEnv with brandQuery := none }

/-- The injection-phase value on the `c2` scenario (defined: the phase
never hits an undecodable-arguments throw there). -/
def c2InjectResult : List ToolCall × LoopState × List (String × Json) :=
  (injectPhase c2Exec [c2Call] initLoopState).getD ([], initLoopState, [])

/-- The dispatch value of the unregistered-tool call on the generous
oracle. -/
def c6DispatchResult : ToolOutput × LoopState × List (String × Json) :=
  (dispatchCall c2Exec initLoopState c6Call).getD
    ({ toolCallId := "", output := .null }, initLoopState, [])

/-- The batch-dispatch value of the single unregistered-tool batch. -/
def c6BatchResult : List ToolOutput × LoopState × List (String × Json) :=
  (dispatchAll c2Exec [c6Call] initLoopState).getD ([], initLoopState, [])

/-- The single-copywriter-iteration value on the generous oracle. -/
def c9IterResult : List ToolOutput × LoopState × List (String × Json) :=
  (processIteration c2Exec [c2Call] initLoopState).getD ([], initLoopState, [])

/-! ### Theorems -/

/-- C3: when the extraction candidate is a string whose direct JSON
decode fails, the extractor decodes the brace-delimited substring running
greedily from the first opening brace to the last closing brace; in
particular, on the prose-wrapped scenario input the extraction succeeds
and yields the enclosed object, ignoring the surrounding prose. -/
theorem C3_string_fallback_extraction :
    (∀ s : String, Json.parse? s = none →
        extractJsonFallback s = (braceSubstring s).bind Json.parse?) ∧
    Json.parse? c3exampleInput = none ∧
    braceSubstring c3exampleInput = some c3exampleSub ∧
    extractJsonFallback c3exampleInput = some c3exampleObj := by
  refine ⟨?_, rfl, rfl, rfl⟩
  intro s h
  unfold extractJsonFallback
  rw [h]
  cases braceSubstring s <;> rfl

/-- Witness: the fallback equation of C3 applied at the concrete scenario
input, whose direct decode fails. -/
theorem C3_string_fallback_extraction_witness :
    extractJsonFallback c3exampleInput = (braceSubstring c3exampleInput).bind Json.parse? :=
  C3_string_fallback_extraction.1 c3exampleInput (by rfl)

/-- C4: extraction succeeds with status `success` and returns the nested
`payload.postCopy` exactly when the decoded value passes the task
validation (a truthy value of object type whose `payload.postCopy` is a
truthy value of object type — the JS `typeof` notion, so arrays also
qualify); otherwise the response carries a null postCopy, status `error`
and the descriptive error string. On the scenario-3 message list the
extracted payload is the object with content `X`, comment `Y` and
hashtags `[#a]`. -/
theorem C4_extraction_validation :
    (∀ msgs parsed, parsedOutput msgs = some parsed → validTask parsed = true →
        generateCopyResponse msgs =
          { postCopy := Json.optGet (parsed.get? "payload") "postCopy"
            status := "success", error := none }) ∧
    (∀ msgs, (generateCopyResponse msgs).status = "success" ↔
        ∃ parsed, parsedOutput msgs = some parsed ∧ validTask parsed = true) ∧
    (∀ msgs, (generateCopyResponse msgs).status ≠ "success" →
        generateCopyResponse msgs =
          { postCopy := none, status := "error"
            error := some "Agent did not return valid postCopy" }) ∧
    generateCopyResponse [scenario3Msg] =
      { postCopy := some scenario3PostCopy, status := "success", error := none } := by
  refine ⟨?_, ?_, ?_, rfl⟩
  · intro msgs parsed h hv
    unfold generateCopyResponse
    rw [h]
    simp [hv]
  · intro msgs
    constructor
    · intro hs
      unfold generateCopyResponse at hs
      cases h : parsedOutput msgs with
      | none => rw [h] at hs; simp at hs
      | some parsed =>
        rw [h] at hs
        by_cases hv : validTask parsed = true
        · exact ⟨parsed, rfl, hv⟩
        · simp [hv] at hs
    · rintro ⟨parsed, h, hv⟩
      unfold generateCopyResponse
      rw [h]
      simp [hv]
  · intro msgs h
    unfold generateCopyResponse at h ⊢
    cases hp : parsedOutput msgs with
    | none => rfl
    | some parsed =>
      rw [hp] at h
      by_cases hv : validTask parsed = true
      · simp [hv] at h
      · simp [hv]

/-- Witness: the success characterization of C4 applied at the scenario-3
message list, with both hypotheses evaluated. -/
theorem C4_extraction_validation_witness :
    generateCopyResponse [scenario3Msg] =
      { postCopy := Json.optGet (scenario3Parsed.get? "payload") "postCopy"
        status := "success", error := none } :=
  C4_extraction_validation.1 [scenario3Msg] scenario3Parsed (by rfl) (by rfl)

/-- Every dispatched output is correlated to its call id, whatever the
validation verdict. -/
theorem dispatchCall_toolCallId (exec : Exec) (st : LoopState) (tc : ToolCall)
    (r : ToolOutput × LoopState × List (String × Json))
    (h : dispatchCall exec st tc = some r) : r.1.toolCallId = tc.id := by
  unfold dispatchCall at h
  cases hd : decodeArgs tc.arguments with
  | none => rw [hd] at h; exact Option.noConfusion h
  | some params =>
    rw [hd] at h
    dsimp only [] at h
    split at h <;> (injection h with h'; subst h'; rfl)

/-- A name outside the registry differs from each registered tool name. -/
theorem not_registered_ne (n : String) (hc : registeredTools.contains n = false) :
    n ≠ "getBrand" ∧ n ≠ "getPostPlan" ∧ n ≠ "createPost" ∧ n ≠ "updatePost" := by
  refine ⟨?_, ?_, ?_, ?_⟩ <;>
    (intro e; rw [e] at hc; exact absurd hc (by decide))

/-- `copywriterAgent` is not a key of `agentToolMap`. -/
theorem contains_copywriter_false :
    registeredTools.contains "copywriterAgent" = false := by decide

/-- Dispatch of a copywriterAgent call: the map lookup fails, the thrown
TypeError is caught into an error output, validation passes, the state
is untouched, and the attempt log records the (possibly topic-filled)
params. -/
theorem dispatchCall_copywriter (exec : Exec) (st : LoopState) (cw : ToolCall) (params : Json)
    (hn : cw.name = "copywriterAgent") (hd : decodeArgs cw.arguments = some params) :
    dispatchCall exec st cw =
      some ({ toolCallId := cw.id, output := .obj [("error", .str missingToolMsg)] }, st,
        [("copywriterAgent",
          if optTruthy (params.get? "topic") = true then params
          else params.setField "topic" (autoSelectTopic st.lastPostPlan))]) := by
  have hmem : ("copywriterAgent" : String) ∉ registeredTools := by decide
  unfold dispatchCall attemptExec validateToolOutput
  rw [hd, hn]
  by_cases ht : optTruthy (params.get? "topic") = true <;>
    simp [ht, contains_copywriter_false, hmem]

/-- The injection pass on a single-copywriter batch: the simulated
execution throws on the missing map entry, the caught error leaves
`lastPostCopy` null, and the batch is returned unchanged. -/
theorem injectPhase_copywriter_single (exec : Exec) (st : LoopState) (cw : ToolCall)
    (params : Json) (hn : cw.name = "copywriterAgent")
    (hd : decodeArgs cw.arguments = some params) :
    injectPhase exec [cw] st =
      some ([cw], { st with lastPostCopy := none }, [("copywriterAgent", params)]) := by
  unfold injectPhase
  have hf : [cw].find? (fun tc => tc.name == "copywriterAgent") = some cw := by
    simp [List.find?, hn]
  rw [hf]
  dsimp only []
  rw [hd]
  dsimp only []
  rw [hn]
  have hreg : attemptExec exec "copywriterAgent" params = .err missingToolMsg := rfl
  rw [hreg]

/-- C6: dispatching a pending call whose tool name is not registered in
`agentToolMap` yields an error ToolResult correlated by call id (the
`toolObj.execute` TypeError is caught and converted) instead of an
escaping exception, and leaves the guardrail state untouched; the batch
dispatch produces exactly one output per pending call, id for id, so the
iteration always reaches the output-submission step. -/
theorem C6_unknown_tool_dispatch :
    (∀ (exec : Exec) (st : LoopState) (tc : ToolCall) (params : Json),
        registeredTools.contains tc.name = false →
        decodeArgs tc.arguments = some params →
        (dispatchCall exec st tc).map (fun r => (r.1, r.2.1)) =
          some ({ toolCallId := tc.id, output := .obj [("error", .str missingToolMsg)] }, st)) ∧
    (∀ (exec : Exec) (tcs : List ToolCall) (st : LoopState)
        (r : List ToolOutput × LoopState × List (String × Json)),
        dispatchAll exec tcs st = some r →
        r.1.map (fun o => o.toolCallId) = tcs.map ToolCall.id) := by
  constructor
  · intro exec st tc params hc hd
    obtain ⟨h1, h2, h3, h4⟩ := not_registered_ne tc.name hc
    have hmem : tc.name ∉ registeredTools := by
      simp [registeredTools, h1, h2, h3, h4]
    unfold dispatchCall attemptExec validateToolOutput
    rw [hd]
    simp [beq_eq_false_iff_ne.mpr h1, beq_eq_false_iff_ne.mpr h2, hc, h3, hmem]
  · intro exec tcs
    induction tcs with
    | nil =>
      intro st r h
      unfold dispatchAll at h
      injection h with h'
      subst h'
      rfl
    | cons tc rest ih =>
      intro st r h
      unfold dispatchAll at h
      cases h1 : dispatchCall exec st tc with
      | none => rw [h1] at h; exact Option.noConfusion h
      | some out1 =>
        obtain ⟨o1, st1, a1⟩ := out1
        rw [h1] at h
        dsimp only [] at h
        cases h2 : dispatchAll exec rest st1 with
        | none => rw [h2] at h; exact Option.noConfusion h
        | some rest1 =>
          obtain ⟨outs, st2, atts⟩ := rest1
          rw [h2] at h
          dsimp only [] at h
          injection h with h'
          subst h'
          have hid := dispatchCall_toolCallId exec st tc ⟨o1, st1, a1⟩ h1
          simp only [List.map_cons]
          rw [hid, ih st1 ⟨outs, st2, atts⟩ h2]

/-- Witness: C6 applied to a concrete hallucinated tool name, both at the
single-call and at the batch level. -/
theorem C6_unknown_tool_dispatch_witness :
    (dispatchCall c2Exec initLoopState c6Call).map (fun r => (r.1, r.2.1)) =
      some ({ toolCallId := "u1", output := .obj [("error", .str missingToolMsg)] },
        initLoopState) ∧
    c6BatchResult.1.map (fun o => o.toolCallId) = ["u1"] := by
  constructor
  · exact C6_unknown_tool_dispatch.1 c2Exec initLoopState c6Call (.obj []) (by decide) rfl
  · exact C6_unknown_tool_dispatch.2 c2Exec [c6Call] initLoopState c6BatchResult rfl

/-- C2 counterexample: a requires_action batch holding exactly one
copywriterAgent call and no createPost call, dispatched against an oracle
on which every registered tool resolves with a postCopy-bearing result.
The claim requires a synthetic createPost call to be appended, with
arguments built from the content-generation result; the code appends
nothing: the injection pass evaluates
`agentToolMap["copywriterAgent"].execute`, and `copywriterAgent` has no
entry in `agentToolMap`, so the caught TypeError leaves `lastPostCopy`
null and the batch unchanged, and the copywriter call itself is answered
with the caught error. -/
theorem C2_counterexample_no_injection :
    (injectPhase c2Exec [c2Call] initLoopState).map (fun r => r.1.map ToolCall.id) =
      some ["c2-1"] ∧
    (processIteration c2Exec [c2Call] initLoopState).map
        (fun r => r.1.map (fun o => o.toolCallId)) = some ["c2-1"] ∧
    (processIteration c2Exec [c2Call] initLoopState).map
        (fun r => r.1.map (fun o => o.output)) =
      some [.obj [("error", .str missingToolMsg)]] ∧
    (processIteration c2Exec [c2Call] initLoopState).map (fun r => r.2.1.lastPostCopy) =
      some none :=
  ⟨rfl, rfl, rfl, rfl⟩

/-- C2 amended: the injection pass appends no createPost call on any
batch, state and oracle. The branch requires the simulated
copywriterAgent execution to yield a truthy postCopy, but
`copywriterAgent` is not a key of `agentToolMap`, so the attempted
execution always throws, is caught, and leaves `lastPostCopy` null
whenever a copywriter call is present (the source, moreover, never
checks for an accompanying createPost call before injecting). -/
theorem C2_amended_injection_never_fires :
    ∀ (exec : Exec) (tcs : List ToolCall) (st : LoopState)
      (r : List ToolCall × LoopState × List (String × Json)),
      injectPhase exec tcs st = some r →
      r.1 = tcs ∧
      (∀ c, tcs.find? (fun tc => tc.name == "copywriterAgent") = some c →
        r.2.1.lastPostCopy = none) := by
  intro exec tcs st r h
  unfold injectPhase at h
  cases hf : tcs.find? (fun tc => tc.name == "copywriterAgent") with
  | none =>
    rw [hf] at h
    injection h with h'
    subst h'
    exact ⟨rfl, fun c hc => Option.noConfusion hc⟩
  | some copyCall =>
    rw [hf] at h
    dsimp only [] at h
    have hp := List.find?_some hf
    have hn : copyCall.name = "copywriterAgent" := eq_of_beq hp
    cases hd : decodeArgs copyCall.arguments with
    | none => rw [hd] at h; exact Option.noConfusion h
    | some params =>
      rw [hd] at h
      rw [hn] at h
      dsimp only [] at h
      have hreg : attemptExec exec "copywriterAgent" params = .err missingToolMsg := rfl
      rw [hreg] at h
      dsimp only [] at h
      injection h with h'
      subst h'
      exact ⟨rfl, fun c _ => rfl⟩

/-- Witness: the amended C2 applied at the concrete copywriter batch. -/
theorem C2_amended_witness :
    c2InjectResult.1 = [c2Call] ∧ c2InjectResult.2.1.lastPostCopy = none := by
  have h := C2_amended_injection_never_fires c2Exec [c2Call] initLoopState c2InjectResult rfl
  exact ⟨h.1, h.2 c2Call rfl⟩

/-- C9 counterexample: an iteration whose batch holds one copywriterAgent
call, against the generous oracle. The claim says the tool's execute
function is invoked twice with the same decoded arguments; in fact the
code makes two dispatch attempts and neither invokes any execute
function: `copywriterAgent` has no `agentToolMap` entry, so each attempt
throws the TypeError on the undefined lookup and is caught. -/
theorem C9_counterexample_no_double_execution :
    (processIteration c2Exec [c2Call] initLoopState).map (fun r => r.2.2) =
      some [("copywriterAgent", c2Params), ("copywriterAgent", c2Params)] ∧
    (processIteration c2Exec [c2Call] initLoopState).map
        (fun r => (executedCalls r.2.2).length) = some 0 ∧
    ¬ (processIteration c2Exec [c2Call] initLoopState).map
        (fun r => (executedCalls r.2.2).length) = some 2 :=
  ⟨rfl, rfl, by decide⟩

/-- C9 amended: an iteration whose batch consists of a copywriterAgent
call makes exactly two dispatch attempts with it (one in the injection
check, one in the batch dispatch, the latter on possibly topic-filled
arguments), and neither attempt executes any registered tool function. -/
theorem C9_amended_two_attempts_zero_executions :
    ∀ (exec : Exec) (st : LoopState) (cw : ToolCall) (params : Json)
      (r : List ToolOutput × LoopState × List (String × Json)),
      cw.name = "copywriterAgent" →
      decodeArgs cw.arguments = some params →
      processIteration exec [cw] st = some r →
      r.2.2.map Prod.fst = ["copywriterAgent", "copywriterAgent"] ∧
      executedCalls r.2.2 = [] := by
  intro exec st cw params r hn hd h
  unfold processIteration at h
  rw [injectPhase_copywriter_single exec st cw params hn hd] at h
  dsimp only [] at h
  unfold dispatchAll at h
  rw [dispatchCall_copywriter exec { st with lastPostCopy := none } cw params hn hd] at h
  dsimp only [] at h
  injection h with h'
  subst h'
  constructor
  · by_cases ht : optTruthy (params.get? "topic") = true <;> simp [ht]
  · by_cases ht : optTruthy (params.get? "topic") = true <;>
      simp [ht, executedCalls, registeredTools]

/-- Witness: the amended C9 applied at the concrete single-copywriter
iteration. -/
theorem C9_amended_witness :
    c9IterResult.2.2.map Prod.fst = ["copywriterAgent", "copywriterAgent"] ∧
    executedCalls c9IterResult.2.2 = [] :=
  C9_amended_two_attempts_zero_executions c2Exec initLoopState c2Call c2Params
    c9IterResult rfl rfl rfl

/-- C7 counterexample: iteration 1 fetches the plan (its execution
resolves with a document whose topics list begins with `topic-one`),
iteration 2 holds a copywriterAgent call without a topic. The claim
requires the dispatched topic to be the fetched plan's first topic
(`topic-one`); the code fills `general`, because `lastPostPlan` stores
the getPostPlan call's argument object (`{postPlanId: p1}`), not the
fetched document, and those arguments carry no topics. -/
theorem C7_counterexample_topic_from_args_not_result :
    Json.optGet (Json.optGet (c7PlanResult.get? "postPlan") "content") "topics" =
      some (.arr [.str "topic-one", .str "topic-two"]) ∧
    (runModel c7Exec [c7Batch1, c7Batch2]).map (fun r => r.2.2) =
      some [[("getPostPlan", .obj [("postPlanId", .str "p1")])],
            [("copywriterAgent", .obj [("brandId", .str "b1")]),
             ("copywriterAgent", .obj [("brandId", .str "b1"), ("topic", .str "general")])]] ∧
    ("general" : String) ≠ "topic-one" :=
  ⟨rfl, rfl, by decide⟩

/-- C7 amended: a copywriterAgent call whose decoded arguments carry no
truthy topic is not failed outright: it is dispatched with the topic set
to `autoSelectTopic lastPostPlan`, where `lastPostPlan` is the argument
object of the most recently seen getPostPlan call (a getPostPlan call
stores exactly its own arguments there, never the fetched document);
`autoSelectTopic` yields that object's first `content.topics` entry when
one exists and the default `general` otherwise — in particular `general`
on realistic `{postPlanId}` arguments. -/
theorem C7_amended_topic_autofill :
    (∀ (exec : Exec) (st : LoopState) (cw : ToolCall) (params : Json),
        cw.name = "copywriterAgent" →
        decodeArgs cw.arguments = some params →
        optTruthy (params.get? "topic") = false →
        (dispatchCall exec st cw).map (fun r => r.2.2) =
          some [("copywriterAgent",
            params.setField "topic" (autoSelectTopic st.lastPostPlan))]) ∧
    (∀ (exec : Exec) (st : LoopState) (tc : ToolCall) (params : Json),
        tc.name = "getPostPlan" →
        decodeArgs tc.arguments = some params →
        (dispatchCall exec st tc).map (fun r => r.2.1.lastPostPlan) = some (some params)) ∧
    autoSelectTopic (some (.obj [("postPlanId", .str "p1")])) = .str "general" := by
  refine ⟨?_, ?_, rfl⟩
  · intro exec st cw params hn hd ht
    rw [dispatchCall_copywriter exec st cw params hn hd]
    simp [ht]
  · intro exec st tc params hn hd
    unfold dispatchCall attemptExec validateToolOutput
    rw [hd, hn]
    simp [registeredTools]

/-- Witness: the amended C7 applied at the topic scenario's two calls. -/
theorem C7_amended_topic_autofill_witness :
    (dispatchCall c7Exec c7StateAfterPlan c7CwCall).map (fun r => r.2.2) =
      some [("copywriterAgent",
        (Json.obj [("brandId", .str "b1")]).setField "topic"
          (autoSelectTopic c7StateAfterPlan.lastPostPlan))] ∧
    (dispatchCall c7Exec initLoopState c7PlanCall).map (fun r => r.2.1.lastPostPlan) =
      some (some (.obj [("postPlanId", .str "p1")])) :=
  ⟨C7_amended_topic_autofill.1 c7Exec c7StateAfterPlan c7CwCall
      (Json.obj [("brandId", .str "b1")]) rfl rfl rfl,
   C7_amended_topic_autofill.2.1 c7Exec initLoopState c7PlanCall
      (Json.obj [("postPlanId", .str "p1")]) rfl rfl⟩

/-- One scenario-2 iteration: the n-th occurrence of the same failing
createPost call increments its key's count from c to c+1 and is answered
with the guardrail verdict for c+1. -/
theorem c1_iteration_step (c : Nat) :
    processIteration c1Exec [c1Call] (c1State c) =
      some ([{ toolCallId := "call-1", output := c1GuardOutput (c + 1) }],
        c1State (c + 1), [("createPost", c1Params)]) := by
  cases c with
  | zero => rfl
  | succ n => rfl

/-- Scenario-2 run segments: m further occurrences starting from count c. -/
theorem c1_run_segment (m : Nat) : ∀ c : Nat,
    runIterations c1Exec (List.replicate m [c1Call]) (c1State c) =
      some ((List.range m).map
          (fun k => [{ toolCallId := "call-1", output := c1GuardOutput (c + k + 1) }]),
        c1State (c + m),
        List.replicate m [("createPost", c1Params)]) := by
  induction m with
  | zero => intro c; simp [runIterations]
  | succ n ih =>
    intro c
    rw [List.replicate_succ]
    unfold runIterations
    rw [c1_iteration_step c]
    dsimp only []
    rw [ih (c + 1)]
    dsimp only []
    have harith : ∀ k : Nat, c + 1 + k + 1 = c + (k + 1) + 1 := by omega
    have hc : c + 1 + n = c + (n + 1) := by omega
    simp [List.range_succ_eq_map, List.replicate_succ, harith, hc, Function.comp]

/-- C1 counterexample: four occurrences of the same createPost call with
a missing postCopy (MAX_RETRIES = 3). The claim prescribes retry results
while the attempt count stays below the maximum and the first terminal
failure on the 4th occurrence; the code returns retries on occurrences 1
and 2 only and the terminal `status: failed` result already on the 3rd
occurrence, which is not the retry-shaped result the claim prescribes
there. -/
theorem C1_counterexample_terminal_on_third :
    (runModel c1Exec (List.replicate 4 [c1Call])).map (fun r => r.1) =
      some [[{ toolCallId := "call-1", output := c1RetryStyle 1 }],
            [{ toolCallId := "call-1", output := c1RetryStyle 2 }],
            [{ toolCallId := "call-1", output := c1TerminalOutput }],
            [{ toolCallId := "call-1", output := c1TerminalOutput }]] ∧
    c1TerminalOutput.get? "retry" = none ∧
    c1TerminalOutput.get? "status" = some (.str "failed") ∧
    (c1RetryStyle 3).get? "retry" = some (.num 3) ∧
    c1RetryStyle 3 ≠ c1TerminalOutput := by
  refine ⟨?_, rfl, rfl, rfl,
    fun h => absurd (congrArg (fun j => (j.get? "retry").isSome) h) (by decide)⟩
  have h : runModel c1Exec (List.replicate 4 [c1Call]) =
      runIterations c1Exec (List.replicate 4 [c1Call]) (c1State 0) := rfl
  rw [h, c1_run_segment 4 0]
  rfl

/-- C1 amended: for the repeatedly failing call, the guardrail returns
the retry result carrying the attempt number on the 1st and 2nd
occurrences and the terminal failure result (error, retries: 3,
status: failed) from the 3rd occurrence onward — the attempt count is
incremented before the `< MAX_RETRIES` check, so only MAX_RETRIES - 1
retries are granted and the terminal result first appears on the 3rd
occurrence, not the 4th. -/
theorem C1_amended_guardrail_schedule : ∀ n : Nat,
    runModel c1Exec (List.replicate n [c1Call]) =
      some ((List.range n).map
          (fun k => [{ toolCallId := "call-1", output := c1GuardOutput (k + 1) }]),
        c1State n,
        List.replicate n [("createPost", c1Params)]) := by
  intro n
  have h := c1_run_segment n 0
  simpa [runModel, c1State, c1RetryMap, initLoopState] using h

/-- Reading a key after `retryCount[key] = n`: the written key holds n,
every other key is unchanged. -/
theorem lookupCount_setCount (k k' : String) (n : Nat) (rc : List (String × Nat)) :
    lookupCount (setCount rc k n) k' = if k' = k then n else lookupCount rc k' := by
  induction rc with
  | nil =>
    by_cases h : k' = k
    · subst h; simp [setCount, lookupCount]
    · simp [setCount, lookupCount, h, Ne.symm h]
  | cons p rest ih =>
    obtain ⟨k2, n2⟩ := p
    by_cases h2 : k2 = k
    · subst h2
      by_cases h : k' = k2
      · subst h; simp [setCount, lookupCount]
      · simp [setCount, lookupCount, h, Ne.symm h]
    · by_cases h : k' = k2
      · subst h
        simp [setCount, lookupCount, h2, Ne.symm h2]
      · simp [setCount, lookupCount, h2, h, Ne.symm h, ih]

/-- One dispatch either bumps exactly one retry key by one (validation
failed) or leaves the retry map untouched. -/
theorem dispatchCall_retryCount (exec : Exec) (st : LoopState) (tc : ToolCall)
    (r : ToolOutput × LoopState × List (String × Json))
    (h : dispatchCall exec st tc = some r) :
    (∃ key, r.2.1.retryCount =
        setCount st.retryCount key (lookupCount st.retryCount key + 1)) ∨
    r.2.1.retryCount = st.retryCount := by
  unfold dispatchCall at h
  cases hd : decodeArgs tc.arguments with
  | none => rw [hd] at h; exact Option.noConfusion h
  | some params =>
    rw [hd] at h
    dsimp only [] at h
    split at h
    · injection h with h'
      subst h'
      left
      dsimp only []
      simp only [apply_ite LoopState.retryCount, ite_self]
      exact ⟨_, rfl⟩
    · injection h with h'
      subst h'
      right
      dsimp only []
      simp [apply_ite LoopState.retryCount]

/-- Dispatch never decreases any retry count. -/
theorem dispatchCall_count_mono (exec : Exec) (st : LoopState) (tc : ToolCall)
    (r : ToolOutput × LoopState × List (String × Json))
    (h : dispatchCall exec st tc = some r) (k : String) :
    lookupCount st.retryCount k ≤ lookupCount r.2.1.retryCount k := by
  rcases dispatchCall_retryCount exec st tc r h with ⟨key, hk⟩ | hk
  · rw [hk, lookupCount_setCount]
    by_cases he : k = key
    · subst he; simp
    · simp [he]
  · rw [hk]

/-- Batch dispatch never decreases any retry count. -/
theorem dispatchAll_count_mono (exec : Exec) :
    ∀ (tcs : List ToolCall) (st : LoopState)
      (r : List ToolOutput × LoopState × List (String × Json)),
      dispatchAll exec tcs st = some r →
      ∀ k, lookupCount st.retryCount k ≤ lookupCount r.2.1.retryCount k := by
  intro tcs
  induction tcs with
  | nil =>
    intro st r h k
    unfold dispatchAll at h
    injection h with h'
    subst h'
    exact Nat.le_refl _
  | cons tc rest ih =>
    intro st r h k
    unfold dispatchAll at h
    cases h1 : dispatchCall exec st tc with
    | none => rw [h1] at h; exact Option.noConfusion h
    | some out1 =>
      obtain ⟨o1, st1, a1⟩ := out1
      rw [h1] at h
      dsimp only [] at h
      cases h2 : dispatchAll exec rest st1 with
      | none => rw [h2] at h; exact Option.noConfusion h
      | some rest1 =>
        obtain ⟨outs, st2, atts⟩ := rest1
        rw [h2] at h
        dsimp only [] at h
        injection h with h'
        subst h'
        exact Nat.le_trans (dispatchCall_count_mono exec st tc ⟨o1, st1, a1⟩ h1 k)
          (ih st1 ⟨outs, st2, atts⟩ h2 k)

/-- The injection pass never touches the retry map. -/
theorem injectPhase_retryCount (exec : Exec) (tcs : List ToolCall) (st : LoopState)
    (r : List ToolCall × LoopState × List (String × Json))
    (h : injectPhase exec tcs st = some r) : r.2.1.retryCount = st.retryCount := by
  unfold injectPhase at h
  cases hf : tcs.find? (fun tc => tc.name == "copywriterAgent") with
  | none =>
    rw [hf] at h
    injection h with h'
    subst h'
    rfl
  | some copyCall =>
    rw [hf] at h
    dsimp only [] at h
    cases hd : decodeArgs copyCall.arguments with
    | none => rw [hd] at h; exact Option.noConfusion h
    | some params =>
      rw [hd] at h
      dsimp only [] at h
      split at h
      · split at h
        · injection h with h'; subst h'; rfl
        · injection h with h'; subst h'; rfl
      · injection h with h'; subst h'; rfl

/-- One `requires_action` iteration never decreases any retry count. -/
theorem processIteration_count_mono (exec : Exec) (tcs : List ToolCall) (st : LoopState)
    (r : List ToolOutput × LoopState × List (String × Json))
    (h : processIteration exec tcs st = some r) (k : String) :
    lookupCount st.retryCount k ≤ lookupCount r.2.1.retryCount k := by
  unfold processIteration at h
  cases h0 : injectPhase exec tcs st with
  | none => rw [h0] at h; exact Option.noConfusion h
  | some inj =>
    obtain ⟨tcs', st', att0⟩ := inj
    rw [h0] at h
    dsimp only [] at h
    cases h1 : dispatchAll exec tcs' st' with
    | none => rw [h1] at h; exact Option.noConfusion h
    | some d =>
      obtain ⟨outs, st'', att1⟩ := d
      rw [h1] at h
      dsimp only [] at h
      injection h with h'
      subst h'
      have he := injectPhase_retryCount exec tcs st ⟨tcs', st', att0⟩ h0
      have hm := dispatchAll_count_mono exec tcs' st' ⟨outs, st'', att1⟩ h1 k
      dsimp only [] at he hm ⊢
      rw [he] at hm
      exact hm

/-- A run segment never decreases any retry count. -/
theorem runIterations_count_mono (exec : Exec) :
    ∀ (bs : List (List ToolCall)) (st : LoopState)
      (r : List (List ToolOutput) × LoopState × List (List (String × Json))),
      runIterations exec bs st = some r →
      ∀ k, lookupCount st.retryCount k ≤ lookupCount r.2.1.retryCount k := by
  intro bs
  induction bs with
  | nil =>
    intro st r h k
    unfold runIterations at h
    injection h with h'
    subst h'
    exact Nat.le_refl _
  | cons b rest ih =>
    intro st r h k
    unfold runIterations at h
    cases h1 : processIteration exec b st with
    | none => rw [h1] at h; exact Option.noConfusion h
    | some p =>
      obtain ⟨outs, st1, atts⟩ := p
      rw [h1] at h
      dsimp only [] at h
      cases h2 : runIterations exec rest st1 with
      | none => rw [h2] at h; exact Option.noConfusion h
      | some rr =>
        obtain ⟨outs2, st2, atts2⟩ := rr
        rw [h2] at h
        dsimp only [] at h
        injection h with h'
        subst h'
        exact Nat.le_trans (processIteration_count_mono exec b st ⟨outs, st1, atts⟩ h1 k)
          (ih st1 ⟨outs2, st2, atts2⟩ h2 k)

/-- Splitting a run at an iteration boundary. -/
theorem runIterations_append (exec : Exec) (xs ys : List (List ToolCall)) :
    ∀ st : LoopState,
      runIterations exec (xs ++ ys) st =
        match runIterations exec xs st with
        | none => none
        | some (outs, st', atts) =>
          match runIterations exec ys st' with
          | none => none
          | some (outs2, st'', atts2) => some (outs ++ outs2, st'', atts ++ atts2) := by
  induction xs with
  | nil =>
    intro st
    rw [List.nil_append]
    have h0 : runIterations exec ([] : List (List ToolCall)) st = some ([], st, []) := rfl
    rw [h0]
    dsimp only []
    cases hr : runIterations exec ys st with
    | none => rfl
    | some rr => obtain ⟨o, s, a⟩ := rr; simp
  | cons b bs ih =>
    intro st
    have hL : runIterations exec ((b :: bs) ++ ys) st =
        match processIteration exec b st with
        | none => none
        | some (outs, st', atts) =>
          match runIterations exec (bs ++ ys) st' with
          | none => none
          | some (outss, st'', attss) => some (outs :: outss, st'', atts :: attss) := rfl
    have hR : runIterations exec (b :: bs) st =
        match processIteration exec b st with
        | none => none
        | some (outs, st', atts) =>
          match runIterations exec bs st' with
          | none => none
          | some (outss, st'', attss) => some (outs :: outss, st'', atts :: attss) := rfl
    rw [hL, hR]
    cases hp : processIteration exec b st with
    | none => rfl
    | some p =>
      obtain ⟨outs, st1, atts⟩ := p
      dsimp only []
      rw [ih st1]
      cases h2 : runIterations exec bs st1 with
      | none => rfl
      | some rr =>
        obtain ⟨o2, s2, a2⟩ := rr
        dsimp only []
        cases h3 : runIterations exec ys s2 with
        | none => rfl
        | some rr3 =>
          obtain ⟨o3, s3, a3⟩ := rr3
          simp

/-- C8: the retry counter is keyed by tool name plus the canonical
serialization of the arguments, starts empty for each run invocation
(`runModel` is a pure function of its own arguments, so no state crosses
runs), never decreases at any key through any dispatch or iteration
prefix, and each validation failure (a createPost call without a truthy
postCopy — the only validation rule) rewrites exactly its own key to its
previous count plus one, while a call with no validation failure leaves
the map untouched. -/
theorem C8_retry_counter_invariants :
    initLoopState.retryCount = [] ∧
    (∀ (exec : Exec) (batches : List (List ToolCall)),
        runModel exec batches = runIterations exec batches initLoopState) ∧
    (∀ (exec : Exec) (st : LoopState) (tc : ToolCall)
        (r : ToolOutput × LoopState × List (String × Json)),
        dispatchCall exec st tc = some r →
        ∀ k, lookupCount st.retryCount k ≤ lookupCount r.2.1.retryCount k) ∧
    (∀ (exec : Exec) (bs1 bs2 : List (List ToolCall)) (st : LoopState)
        (r1 r2 : List (List ToolOutput) × LoopState × List (List (String × Json))),
        runIterations exec bs1 st = some r1 →
        runIterations exec (bs1 ++ bs2) st = some r2 →
        ∀ k, lookupCount r1.2.1.retryCount k ≤ lookupCount r2.2.1.retryCount k) ∧
    (∀ (exec : Exec) (st : LoopState) (tc : ToolCall) (params : Json)
        (r : ToolOutput × LoopState × List (String × Json)),
        tc.name = "createPost" →
        decodeArgs tc.arguments = some params →
        optTruthy (params.get? "postCopy") = false →
        dispatchCall exec st tc = some r →
        r.2.1.retryCount =
          setCount st.retryCount ("createPost" ++ params.stringify)
            (lookupCount st.retryCount ("createPost" ++ params.stringify) + 1)) ∧
    (∀ (exec : Exec) (st : LoopState) (tc : ToolCall) (params : Json)
        (r : ToolOutput × LoopState × List (String × Json)),
        tc.name ≠ "createPost" →
        decodeArgs tc.arguments = some params →
        dispatchCall exec st tc = some r →
        r.2.1.retryCount = st.retryCount) := by
  refine ⟨rfl, fun _ _ => rfl, dispatchCall_count_mono, ?_, ?_, ?_⟩
  · intro exec bs1 bs2 st r1 r2 h1 h2 k
    rw [runIterations_append] at h2
    rw [h1] at h2
    obtain ⟨o1, st1, a1⟩ := r1
    dsimp only [] at h2 ⊢
    cases hr : runIterations exec bs2 st1 with
    | none => rw [hr] at h2; exact Option.noConfusion h2
    | some rr =>
      obtain ⟨o2, st2, a2⟩ := rr
      rw [hr] at h2
      dsimp only [] at h2
      injection h2 with h'
      subst h'
      exact runIterations_count_mono exec bs2 st1 ⟨o2, st2, a2⟩ hr k
  · intro exec st tc params r hn hd hv h
    obtain ⟨ro, rst, ratt⟩ := r
    unfold dispatchCall validateToolOutput at h
    rw [hd, hn] at h
    simp [hv] at h
    obtain ⟨h1, h2, h3⟩ := h
    subst h2
    simp [apply_ite LoopState.retryCount]
  · intro exec st tc params r hn hd h
    obtain ⟨ro, rst, ratt⟩ := r
    unfold dispatchCall validateToolOutput at h
    rw [hd] at h
    simp [hn] at h
    obtain ⟨h1, h2, h3⟩ := h
    subst h2
    simp [apply_ite LoopState.retryCount]

section

set_option maxHeartbeats 1000000

/-- Witness: the C8 invariants applied at the scenario-2 failing call
(one dispatch, a one-iteration prefix of a two-iteration run) and at the
unregistered-tool dispatch. -/
theorem C8_retry_counter_invariants_witness :
    lookupCount initLoopState.retryCount c1Key ≤
      lookupCount c1DispatchResult.2.1.retryCount c1Key ∧
    lookupCount c8Run1.2.1.retryCount c1Key ≤ lookupCount c8Run2.2.1.retryCount c1Key ∧
    c1DispatchResult.2.1.retryCount =
      setCount initLoopState.retryCount ("createPost" ++ c1Params.stringify)
        (lookupCount initLoopState.retryCount ("createPost" ++ c1Params.stringify) + 1) ∧
    c6DispatchResult.2.1.retryCount = initLoopState.retryCount := by
  refine ⟨?_, ?_, ?_, ?_⟩
  · exact C8_retry_counter_invariants.2.2.1 c1Exec initLoopState c1Call
      c1DispatchResult rfl c1Key
  · exact C8_retry_counter_invariants.2.2.2.1 c1Exec [[c1Call]] [[c1Call]]
      initLoopState c8Run1 c8Run2 rfl rfl c1Key
  · exact C8_retry_counter_invariants.2.2.2.2.1 c1Exec initLoopState c1Call c1Params
      c1DispatchResult rfl rfl rfl rfl
  · exact C8_retry_counter_invariants.2.2.2.2.2 c2Exec initLoopState c6Call (.obj [])
      c6DispatchResult (by decide) rfl rfl

end

/-- C5 counterexample: on a fully successful request the final trace
holds two `start` events, not one — the `TraceManager` constructor emits
one and the `orchestrateContent` handler immediately adds a second
explicit `start` event. -/
theorem C5_counterexample_two_start_events :
    countType (orchestrateContentModel happyEnv).trace.events "start" = 2 ∧
    ¬ countType (orchestrateContentModel happyEnv).trace.events "start" = 1 :=
  ⟨rfl, by decide⟩

/-- C5 amended: on every path of the orchestration handler — success and
every error path — the final trace holds exactly one `end` event, whose
metadata carries the trace's status at finalization, and exactly two
`start` events (the constructor's implicit one plus the handler's
explicit duplicate at the top of `orchestrateContent`). -/
theorem C5_amended_trace_lifecycle (env : HandlerEnv) :
    countType (orchestrateContentModel env).trace.events "end" = 1 ∧
    countType (orchestrateContentModel env).trace.events "start" = 2 ∧
    lastEndStatus (orchestrateContentModel env).trace.events =
      some (.str (orchestrateContentModel env).trace.status) := by
  obtain ⟨url, bodyParse, ppq, bq, initOk, genRes, cpOk⟩ := env
  unfold orchestrateContentModel
  cases bodyParse with
  | none =>
    refine ⟨?_, ?_, ?_⟩ <;>
      simp [handleErrorModel, handlerTail, TraceMgr.failTrace, TraceMgr.succeedTrace,
        TraceMgr.endTrace, TraceMgr.addEvent, TraceMgr.init, endMetadata, Json.setField,
        countType, lastEndStatus, List.filter, optTruthy, Json.get?, Json.fieldLookup]
  | some body =>
    cases hco : isCORequest body with
    | false =>
      refine ⟨?_, ?_, ?_⟩ <;>
        simp [hco, handleErrorModel, handlerTail, TraceMgr.failTrace, TraceMgr.succeedTrace,
          TraceMgr.endTrace, TraceMgr.addEvent, TraceMgr.init, endMetadata, Json.setField,
          countType, lastEndStatus, List.filter, optTruthy, Json.get?, Json.fieldLookup]
    | true =>
      cases hpp : (getPostPlan ppq).postPlan with
      | none =>
        refine ⟨?_, ?_, ?_⟩ <;>
          simp [hco, hpp, handleErrorModel, handlerTail, TraceMgr.failTrace,
            TraceMgr.succeedTrace, TraceMgr.endTrace, TraceMgr.addEvent, TraceMgr.init,
            endMetadata, Json.setField, countType, lastEndStatus, List.filter, optTruthy, Json.get?, Json.fieldLookup]
      | some plan =>
        cases hbr : (getBrand bq).brand with
        | none =>
          refine ⟨?_, ?_, ?_⟩ <;>
            simp [hco, hpp, hbr, handleErrorModel, handlerTail, TraceMgr.failTrace,
              TraceMgr.succeedTrace, TraceMgr.endTrace, TraceMgr.addEvent, TraceMgr.init,
              endMetadata, Json.setField, countType, lastEndStatus, List.filter, optTruthy, Json.get?, Json.fieldLookup]
        | some brand =>
          cases initOk with
          | false =>
            refine ⟨?_, ?_, ?_⟩ <;>
              simp [hco, hpp, hbr, handleErrorModel, handlerTail, TraceMgr.failTrace,
                TraceMgr.succeedTrace, TraceMgr.endTrace, TraceMgr.addEvent, TraceMgr.init,
                endMetadata, Json.setField, countType, lastEndStatus, List.filter, optTruthy, Json.get?, Json.fieldLookup]
          | true =>
            rcases genRes with _ | _ | resp
            · refine ⟨?_, ?_, ?_⟩ <;>
                simp [hco, hpp, hbr, handleErrorModel, handlerTail, TraceMgr.failTrace,
                  TraceMgr.succeedTrace, TraceMgr.endTrace, TraceMgr.addEvent, TraceMgr.init,
                  endMetadata, Json.setField, countType, lastEndStatus, List.filter, optTruthy, Json.get?, Json.fieldLookup]
            · refine ⟨?_, ?_, ?_⟩ <;>
                simp [hco, hpp, hbr, handleErrorModel, handlerTail, TraceMgr.failTrace,
                  TraceMgr.succeedTrace, TraceMgr.endTrace, TraceMgr.addEvent, TraceMgr.init,
                  endMetadata, Json.setField, countType, lastEndStatus, List.filter, optTruthy, Json.get?, Json.fieldLookup]
            · cases hpc : resp.postCopy with
              | none =>
                refine ⟨?_, ?_, ?_⟩ <;>
                  simp [hco, hpp, hbr, hpc, handleErrorModel, handlerTail, TraceMgr.failTrace,
                    TraceMgr.succeedTrace, TraceMgr.endTrace, TraceMgr.addEvent, TraceMgr.init,
                    endMetadata, Json.setField, countType, lastEndStatus, List.filter, optTruthy, Json.get?, Json.fieldLookup]
              | some pc =>
                cases htr : pc.truthy with
                | false =>
                  refine ⟨?_, ?_, ?_⟩ <;>
                    simp [hco, hpp, hbr, hpc, htr, handleErrorModel, handlerTail,
                      TraceMgr.failTrace, TraceMgr.succeedTrace, TraceMgr.endTrace,
                      TraceMgr.addEvent, TraceMgr.init, endMetadata, Json.setField,
                      countType, lastEndStatus, List.filter, optTruthy, Json.get?, Json.fieldLookup]
                | true =>
                  cases cpOk with
                  | false =>
                    refine ⟨?_, ?_, ?_⟩ <;>
                      simp [hco, hpp, hbr, hpc, htr, handleErrorModel, handlerTail,
                        TraceMgr.failTrace, TraceMgr.succeedTrace, TraceMgr.endTrace,
                        TraceMgr.addEvent, TraceMgr.init, endMetadata, Json.setField,
                        countType, lastEndStatus, List.filter, optTruthy, Json.get?, Json.fieldLookup]
                  | true =>
                    cases hs : resp.status == "success" with
                    | false =>
                      refine ⟨?_, ?_, ?_⟩ <;>
                        simp [hco, hpp, hbr, hpc, htr, hs, handleErrorModel, handlerTail,
                          TraceMgr.failTrace, TraceMgr.succeedTrace, TraceMgr.endTrace,
                          TraceMgr.addEvent, TraceMgr.init, endMetadata, Json.setField,
                          countType, lastEndStatus, List.filter, optTruthy, Json.get?, Json.fieldLookup]
                    | true =>
                      refine ⟨?_, ?_, ?_⟩ <;>
                        simp [hco, hpp, hbr, hpc, htr, hs, handleErrorModel, handlerTail,
                          TraceMgr.failTrace, TraceMgr.succeedTrace, TraceMgr.endTrace,
                          TraceMgr.addEvent, TraceMgr.init, endMetadata, Json.setField,
                          countType, lastEndStatus, List.filter, optTruthy, Json.get?, Json.fieldLookup]

/-- C10: `getPostPlan` and `getBrand` never throw — the catch converts
any store-query failure into the not-found result, indistinguishable
from a genuine empty query result — so the HTTP handler answers a store
failure in these lookups with the 404 not-found mapping, never with a
5xx. -/
theorem C10_lookup_store_failure_maps_to_404 :
    getPostPlan none = { postPlan := none } ∧
    getPostPlan (some []) = { postPlan := none } ∧
    (∀ (d : Json) (ds : List Json), getPostPlan (some (d :: ds)) = { postPlan := some d }) ∧
    getBrand none = { brand := none } ∧
    getBrand (some []) = { brand := none } ∧
    (∀ (d : Json) (ds : List Json), getBrand (some (d :: ds)) = { brand := some d }) ∧
    (∀ (env : HandlerEnv) (body : Json),
        env.bodyParse = some body → isCORequest body = true →
        env.postPlanQuery = none →
        (orchestrateContentModel env).httpStatus = 404) ∧
    (∀ (env : HandlerEnv) (body : Json) (d : Json) (ds : List Json),
        env.bodyParse = some body → isCORequest body = true →
        env.postPlanQuery = some (d :: ds) →
        env.brandQuery = none →
        (orchestrateContentModel env).httpStatus = 404) := by
  refine ⟨rfl, rfl, fun d ds => rfl, rfl, rfl, fun d ds => rfl, ?_, ?_⟩
  · intro env body hb hco hq
    obtain ⟨url, bodyParse, ppq, bq, initOk, genRes, cpOk⟩ := env
    dsimp only [] at hb hq
    subst hb
    subst hq
    unfold orchestrateContentModel
    simp [hco, getPostPlan, getPostPlanBody, handleErrorModel]
  · intro env body d ds hb hco hq hbq
    obtain ⟨url, bodyParse, ppq, bq, initOk, genRes, cpOk⟩ := env
    dsimp only [] at hb hq hbq
    subst hb
    subst hq
    subst hbq
    unfold orchestrateContentModel
    simp [hco, getPostPlan, getPostPlanBody, getBrand, getBrandBody, handleErrorModel]

/-- Witness: C10's handler mapping applied at the concrete environments
whose postPlan (respectively brand) store query throws. -/
theorem C10_lookup_store_failure_maps_to_404_witness :
    (orchestrateContentModel planStoreFailEnv).httpStatus = 404 ∧
    (orchestrateContentModel brandStoreFailEnv).httpStatus = 404 :=
  ⟨C10_lookup_store_failure_maps_to_404.2.2.2.2.2.2.1 planStoreFailEnv
      (.obj [("brandId", .str "b1"), ("postPlanId", .str "p1")]) rfl rfl rfl,
   C10_lookup_store_failure_maps_to_404.2.2.2.2.2.2.2 brandStoreFailEnv
      (.obj [("brandId", .str "b1"), ("postPlanId", .str "p1")])
      (.obj [("id", .str "p1")]) [] rfl rfl rfl rfl⟩

end AutogenSocial
